import Mathlib

/-!
Shallow embedding of the note-lifecycle engine (`src/audio/audioEngine.js`),
the MIDI conversion (`src/audio/noteMap.js`) and the visual-engine settings
and opacity computation (`visualEngine.js`) of the `keyboard` repository.

The engine's module-level mutable maps become fields of an explicit
`EngineState`; `setTimeout` cleanup callbacks become `Cleanup` records on a
pending list, fired by `runCleanup`; Web Audio oscillator/gain nodes become
`OscNode` records keyed by the instance id they were created with.  Times
and frequencies are rationals; the analytically sampled gain is real-valued
because the release curve uses a real power.
-/

namespace Keyboard

/-- Envelope settings from audioEngine.js: `ATTACK_TIME = 0.02`. -/
def ATTACK_TIME : ℚ := 1 / 50

/-- Release duration: `RELEASE_TIME = 0.15`. -/
def RELEASE_TIME : ℚ := 3 / 20

/-- Peak amplitude: `MAX_GAIN = 0.3`. -/
def MAX_GAIN : ℚ := 3 / 10

/-- Note identities are strings (keyboard keys). -/
abbrev NoteId := String

/-- An entry of the `activeNotes` map: `{ oscillator, gainNode, frequency,
isReleasing, instanceId }`.  The oscillator/gain nodes live in
`EngineState.oscs`, keyed by `instanceId`. -/
structure ActiveNote where
  frequency : ℚ
  isReleasing : Bool
  instanceId : ℕ
  deriving DecidableEq

/-- An entry of the visualization map `noteState.active`:
`{ frequency, gain, startTime, instanceId }`, plus the `releasing` and
`releaseStartTime` fields that `stopNote` adds (modelled as present from the
start, with `releasing = false` standing for the absent field). -/
structure VisNote where
  frequency : ℚ
  gain : ℚ
  startTime : ℚ
  instanceId : ℕ
  releasing : Bool
  releaseStartTime : ℚ
  deriving DecidableEq

/-- The oscillator + gain node pair created for one note instance.
`stopTime` records a scheduled `oscillator.stop(t)`; `stopped` an immediate
`oscillator.stop()`; `connected = false` once the nodes are disconnected. -/
structure OscNode where
  oscType : String
  started : Bool
  stopped : Bool
  connected : Bool
  stopTime : Option ℚ
  deriving DecidableEq

/-- A deferred cleanup callback scheduled by `stopNote` via `setTimeout`.
It captures the note id, the instance id current at schedule time, and the
old oscillator/gain pair (recoverable from `capturedInstanceId` since
instance ids are unique).  `fireTime` is schedule time plus
`(RELEASE_TIME + 0.05)` seconds. -/
structure Cleanup where
  noteId : NoteId
  capturedInstanceId : ℕ
  fireTime : ℚ
  deriving DecidableEq

/-- The whole mutable state of audioEngine.js: the `activeNotes` map, the
`noteState.active` map, the `instanceCounter`, all created audio nodes, the
pending `setTimeout` cleanups, and the log of scheduled decay ramps
(`exponentialRampToValueAtTime` calls), recorded as
(note id, instance id, time). -/
structure EngineState where
  activeNotes : NoteId → Option ActiveNote
  visActive : NoteId → Option VisNote
  instanceCounter : ℕ
  oscs : ℕ → Option OscNode
  pending : List Cleanup
  rampEvents : List (NoteId × ℕ × ℚ)

/-- The initial module state: empty maps, counter 0, nothing scheduled. -/
def initState : EngineState :=
  ⟨fun _ => none, fun _ => none, 0, fun _ => none, [], []⟩

/-- The function `forceStopNote(noteId)` (audioEngine.js lines 166-181): if the note is
active, stop and disconnect its oscillator/gain immediately and delete the
entries of both maps. -/
def forceStopNote (noteId : NoteId) (s : EngineState) : EngineState :=
  match s.activeNotes noteId with
  | none => s
  | some n =>
    { s with
      oscs := fun i =>
        if i = n.instanceId then
          (s.oscs i).map fun o => { o with stopped := true, connected := false }
        else s.oscs i,
      activeNotes := fun k => if k = noteId then none else s.activeNotes k,
      visActive := fun k => if k = noteId then none else s.visActive k }

/-- The unconditional part of `playNote` (lines 67-107): create a fresh
oscillator/gain with a new instance id, start it, and register the note in
both maps. -/
def startFresh (noteId : NoteId) (frequency : ℚ) (oscType : String)
    (now : ℚ) (s : EngineState) : EngineState :=
  let instanceId := s.instanceCounter + 1
  { s with
    instanceCounter := instanceId,
    oscs := fun i =>
      if i = instanceId then some ⟨oscType, true, false, true, none⟩
      else s.oscs i,
    activeNotes := fun k =>
      if k = noteId then some ⟨frequency, false, instanceId⟩
      else s.activeNotes k,
    visActive := fun k =>
      if k = noteId then some ⟨frequency, MAX_GAIN, now, instanceId, false, 0⟩
      else s.visActive k }

/-- The function `playNote(noteId, frequency, oscillatorType)` (lines 54-107): no-op if
the note is active and not releasing; if releasing, `forceStopNote` first;
then create the fresh instance. -/
def playNote (noteId : NoteId) (frequency : ℚ) (oscType : String)
    (now : ℚ) (s : EngineState) : EngineState :=
  match s.activeNotes noteId with
  | some existing =>
    if !existing.isReleasing then s
    else startFresh noteId frequency oscType now (forceStopNote noteId s)
  | none => startFresh noteId frequency oscType now s

/-- The function `stopNote(noteId)` (lines 113-160): no-op if absent or already
releasing; otherwise mark releasing, schedule the exponential decay ramp,
schedule `oscillator.stop(now + RELEASE_TIME + 0.01)`, schedule the
deferred cleanup at `now + RELEASE_TIME + 1 / 20`, and mark the visual entry
releasing with `releaseStartTime = now`. -/
def stopNote (noteId : NoteId) (now : ℚ) (s : EngineState) : EngineState :=
  match s.activeNotes noteId with
  | none => s
  | some note =>
    if note.isReleasing then s
    else
      { s with
        activeNotes := fun k =>
          if k = noteId then some { note with isReleasing := true }
          else s.activeNotes k,
        rampEvents := s.rampEvents ++ [(noteId, note.instanceId, now)],
        oscs := fun i =>
          if i = note.instanceId then
            (s.oscs i).map fun o =>
              { o with stopTime := some (now + RELEASE_TIME + 1 / 100) }
          else s.oscs i,
        pending := s.pending ++
          [⟨noteId, note.instanceId, now + RELEASE_TIME + 1 / 20⟩],
        visActive := fun k =>
          if k = noteId then
            (s.visActive k).map fun v =>
              { v with releasing := true, releaseStartTime := now }
          else s.visActive k }

/-- The body of the `setTimeout` callback in `stopNote` (lines 138-153):
delete both map entries when the identity is unoccupied or still occupied
by the instance captured at schedule time; always disconnect the old
oscillator/gain pair; the fired timeout leaves the pending list. -/
def runCleanup (c : Cleanup) (s : EngineState) : EngineState :=
  let s1 :=
    match s.activeNotes c.noteId with
    | none =>
      { s with
        activeNotes := fun k => if k = c.noteId then none else s.activeNotes k,
        visActive := fun k => if k = c.noteId then none else s.visActive k }
    | some currentNote =>
      if currentNote.instanceId = c.capturedInstanceId then
        { s with
          activeNotes := fun k => if k = c.noteId then none else s.activeNotes k,
          visActive := fun k => if k = c.noteId then none else s.visActive k }
      else s
  { s1 with
    oscs := fun i =>
      if i = c.capturedInstanceId then
        (s1.oscs i).map fun o => { o with connected := false }
      else s1.oscs i,
    pending := s1.pending.erase c }

/-- The function `getNoteGain(noteId)` (lines 188-213), the analytic envelope sample at
time `now`: 0 with no live instance; the exponential decay
`MAX_GAIN * (0.001 / MAX_GAIN) ^ min(releaseElapsed / RELEASE_TIME, 1)`
when releasing; the linear ramp `(elapsed / ATTACK_TIME) * MAX_GAIN` during
attack; `MAX_GAIN` during sustain. -/
noncomputable def getNoteGain (noteId : NoteId) (now : ℚ) (s : EngineState) : ℝ :=
  match s.activeNotes noteId with
  | none => 0
  | some _ =>
    match s.visActive noteId with
    | none => 0
    | some noteData =>
      let elapsed : ℚ := now - noteData.startTime
      if noteData.releasing then
        let releaseProgress : ℚ :=
          min ((now - noteData.releaseStartTime) / RELEASE_TIME) 1
        (MAX_GAIN : ℝ) * ((1 / 1000 / MAX_GAIN : ℚ) : ℝ) ^ ((releaseProgress : ℚ) : ℝ)
      else if elapsed < ATTACK_TIME then
        ((elapsed / ATTACK_TIME) * MAX_GAIN : ℚ)
      else
        (MAX_GAIN : ℚ)

/-- The function `midiToFrequency(midiNote, octaveOffset)` (noteMap.js lines 256-259):
`440 * 2 ^ ((midiNote + octaveOffset * 12 - 69) / 12)`. -/
noncomputable def midiToFrequency (midiNote : ℤ) (octaveOffset : ℤ) : ℝ :=
  440 * (2 : ℝ) ^ ((((midiNote + octaveOffset * 12 : ℤ) : ℝ) - 69) / 12)

/-- The configurable visual settings (visualEngine.js lines 23-27). -/
structure VisualSettings where
  trailEnabled : Bool
  trailAlpha : ℚ
  fadeLength : ℚ
  deriving DecidableEq

/-- The module's initial `visualSettings` value. -/
def visualSettings : VisualSettings := ⟨true, 3 / 25, 500⟩

/-- The partial `settings` object passed to `updateVisualSettings`; `none`
models an `undefined` field. -/
structure SettingsUpdate where
  trailEnabled : Option Bool
  trailAlpha : Option ℚ
  fadeLength : Option ℚ
  deriving DecidableEq

/-- The function `updateVisualSettings(settings)` (visualEngine.js lines 132-142):
each defined field overwrites the stored one, with `trailAlpha` clamped to
`[0.01, 1]` and `fadeLength` clamped to `[100, 5000]`. -/
def updateVisualSettings (u : SettingsUpdate) (s : VisualSettings) : VisualSettings :=
  let s1 :=
    match u.trailEnabled with
    | some b => { s with trailEnabled := b }
    | none => s
  let s2 :=
    match u.trailAlpha with
    | some a => { s1 with trailAlpha := max (1 / 100) (min 1 a) }
    | none => s1
  match u.fadeLength with
  | some v => { s2 with fadeLength := max 100 (min 5000 v) }
  | none => s2

/-- The opacity computation of `renderEntities` (visualEngine.js lines
182-188): `gain * 2`, times `max(0, 1 - (currentTime - fadeStartTime)/500)`
when the entity is fading, then `min(·, 1)`.  Times are in milliseconds. -/
noncomputable def entityOpacity (gain : ℝ) (fading : Bool)
    (currentTime fadeStartTime : ℚ) : ℝ :=
  let o1 := gain * 2
  let o2 :=
    if fading then o1 * max 0 (1 - ((currentTime - fadeStartTime : ℚ) : ℝ) / 500)
    else o1
  min o2 1

/-- Lines 190-191: the entity is skipped (`continue`) when its computed
opacity is ≤ 0, otherwise rendered with that opacity. -/
noncomputable def renderedOpacity (gain : ℝ) (fading : Bool)
    (currentTime fadeStartTime : ℚ) : Option ℝ :=
  let o := entityOpacity gain fading currentTime fadeStartTime
  if o ≤ 0 then none else some o

/-- Line 122 of `updateVisualEntities`: a fading entity is destroyed once
`currentTime - fadeStartTime > visualSettings.fadeLength`. -/
def entityExpired (settings : VisualSettings) (fading : Bool)
    (currentTime fadeStartTime : ℚ) : Bool :=
  fading && decide (settings.fadeLength < currentTime - fadeStartTime)

/-- The opacity the spec's §4.2 step 4 describes, with the fade scale taken
from the configured fade duration: `sampleEnvelope * amplification`, scaled
by `(1 - fadeElapsed / fadeDuration)` if fading, clamped to `[0, 1]`. -/
noncomputable def entityOpacityClaimed (gain : ℝ) (fading : Bool)
    (currentTime fadeStartTime fadeDuration : ℚ) : ℝ :=
  let scaled :=
    if fading then
      gain * 2 * (1 - ((currentTime - fadeStartTime : ℚ) : ℝ) / (fadeDuration : ℚ))
    else gain * 2
  max 0 (min 1 scaled)

/-- Claim C1: when the live instance of `k` is releasing, `playNote k f2`
synchronously tears the old instance down (it factors as `startFresh` after
`forceStopNote`, with both map entries gone and the old oscillator stopped
and disconnected in the intermediate state), creates a new instance whose
generation `s.instanceCounter + 1` is strictly greater than the old one's,
leaves only the new oscillator connected, and afterwards `getNoteGain` at
every time follows the new instance's attack/sustain curve, never the old
decay curve. -/
theorem startTone_supersedes_releasing (s : EngineState) (k : NoteId)
    (f2 : ℚ) (typ : String) (now : ℚ) (old : ActiveNote)
    (hold : s.activeNotes k = some old)
    (hrel : old.isReleasing = true)
    (hwf : old.instanceId ≤ s.instanceCounter) :
    playNote k f2 typ now s = startFresh k f2 typ now (forceStopNote k s) ∧
    (forceStopNote k s).activeNotes k = none ∧
    (forceStopNote k s).visActive k = none ∧
    (∀ o : OscNode, (forceStopNote k s).oscs old.instanceId = some o →
        o.stopped = true ∧ o.connected = false) ∧
    old.instanceId < (playNote k f2 typ now s).instanceCounter ∧
    (playNote k f2 typ now s).activeNotes k
        = some ⟨f2, false, s.instanceCounter + 1⟩ ∧
    (playNote k f2 typ now s).visActive k
        = some ⟨f2, MAX_GAIN, now, s.instanceCounter + 1, false, 0⟩ ∧
    (∀ o : OscNode, (playNote k f2 typ now s).oscs old.instanceId = some o →
        o.stopped = true ∧ o.connected = false) ∧
    (playNote k f2 typ now s).oscs (s.instanceCounter + 1)
        = some ⟨typ, true, false, true, none⟩ ∧
    (∀ t : ℚ, getNoteGain k t (playNote k f2 typ now s) =
        if t - now < ATTACK_TIME
        then ((((t - now) / ATTACK_TIME) * MAX_GAIN : ℚ) : ℝ)
        else ((MAX_GAIN : ℚ) : ℝ)) := by
  have hplay : playNote k f2 typ now s = startFresh k f2 typ now (forceStopNote k s) := by
    simp [playNote, hold, hrel]
  have hcnt : (forceStopNote k s).instanceCounter = s.instanceCounter := by
    simp [forceStopNote, hold]
  have hne : ¬ (old.instanceId = s.instanceCounter + 1) := by omega
  have hfosc : ∀ o : OscNode, (forceStopNote k s).oscs old.instanceId = some o →
      o.stopped = true ∧ o.connected = false := by
    intro o ho
    simp only [forceStopNote, hold, if_pos rfl] at ho
    obtain ⟨o1, _, rfl⟩ := Option.map_eq_some'.mp ho
    exact ⟨rfl, rfl⟩
  refine ⟨hplay, ?_, ?_, hfosc, ?_, ?_, ?_, ?_, ?_, ?_⟩
  · simp [forceStopNote, hold]
  · simp [forceStopNote, hold]
  · rw [hplay]
    simp only [startFresh, hcnt]
    omega
  · rw [hplay]
    simp [startFresh, hcnt]
  · rw [hplay]
    simp [startFresh, hcnt]
  · intro o ho
    rw [hplay] at ho
    simp only [startFresh, hcnt, hne, if_false] at ho
    exact hfosc o ho
  · rw [hplay]
    simp [startFresh, hcnt]
  · intro t
    rw [hplay]
    simp [getNoteGain, startFresh, hcnt]

/-- Witness for C1: start-stop-restart on one key; the releasing instance
of generation 1 is superseded by generation 2. -/
theorem startTone_supersedes_releasing_witness :
    (stopNote "k" 1 (playNote "k" 440 "sine" 0 initState)).activeNotes "k"
        = some ⟨440, true, 1⟩ ∧
    (1 : ℕ) ≤ (stopNote "k" 1 (playNote "k" 440 "sine" 0 initState)).instanceCounter ∧
    (playNote "k" 523 "sine" 2 (stopNote "k" 1 (playNote "k" 440 "sine" 0 initState))).activeNotes "k"
        = some ⟨523, false,
            (stopNote "k" 1 (playNote "k" 440 "sine" 0 initState)).instanceCounter + 1⟩ := by
  have h := startTone_supersedes_releasing
    (stopNote "k" 1 (playNote "k" 440 "sine" 0 initState)) "k" 523 "sine" 2
    ⟨440, true, 1⟩ (by decide) rfl (by decide)
  exact ⟨by decide, by decide, h.2.2.2.2.2.1⟩

/-- Claim C2: the cleanup scheduled by `stopNote` captures the stopped
instance's generation; once `playNote` has installed a strictly newer
instance for the same identity, firing that cleanup leaves both maps
untouched (and, in general, any cleanup whose captured generation differs
from the current occupant's removes nothing), while the captured old
oscillator is disconnected unconditionally. -/
theorem stale_cleanup_skips_newer (s : EngineState) (k : NoteId) (f2 : ℚ)
    (typ : String) (t0 t1 : ℚ) (n : ActiveNote)
    (hn : s.activeNotes k = some n)
    (hnrel : n.isReleasing = false)
    (hwf : n.instanceId ≤ s.instanceCounter) :
    (stopNote k t0 s).pending
        = s.pending ++ [⟨k, n.instanceId, t0 + RELEASE_TIME + 1 / 20⟩] ∧
    (playNote k f2 typ t1 (stopNote k t0 s)).activeNotes k
        = some ⟨f2, false, s.instanceCounter + 1⟩ ∧
    n.instanceId < s.instanceCounter + 1 ∧
    (runCleanup ⟨k, n.instanceId, t0 + RELEASE_TIME + 1 / 20⟩
        (playNote k f2 typ t1 (stopNote k t0 s))).activeNotes
      = (playNote k f2 typ t1 (stopNote k t0 s)).activeNotes ∧
    (runCleanup ⟨k, n.instanceId, t0 + RELEASE_TIME + 1 / 20⟩
        (playNote k f2 typ t1 (stopNote k t0 s))).visActive
      = (playNote k f2 typ t1 (stopNote k t0 s)).visActive ∧
    (∀ o : OscNode,
      (runCleanup ⟨k, n.instanceId, t0 + RELEASE_TIME + 1 / 20⟩
          (playNote k f2 typ t1 (stopNote k t0 s))).oscs n.instanceId = some o →
        o.connected = false) ∧
    (∀ s3 : EngineState, ∀ cur : ActiveNote,
      s3.activeNotes k = some cur →
      cur.instanceId ≠ n.instanceId →
      (runCleanup ⟨k, n.instanceId, t0 + RELEASE_TIME + 1 / 20⟩ s3).activeNotes
          = s3.activeNotes ∧
      (runCleanup ⟨k, n.instanceId, t0 + RELEASE_TIME + 1 / 20⟩ s3).visActive
          = s3.visActive) := by
  have hstop : (stopNote k t0 s).activeNotes k = some { n with isReleasing := true } := by
    simp [stopNote, hn, hnrel]
  have hpend : (stopNote k t0 s).pending
      = s.pending ++ [⟨k, n.instanceId, t0 + RELEASE_TIME + 1 / 20⟩] := by
    simp [stopNote, hn, hnrel]
  have hscnt : (stopNote k t0 s).instanceCounter = s.instanceCounter := by
    simp [stopNote, hn, hnrel]
  have hfcnt : (forceStopNote k (stopNote k t0 s)).instanceCounter = s.instanceCounter := by
    simp [forceStopNote, hstop, hscnt]
  have hplay : playNote k f2 typ t1 (stopNote k t0 s)
      = startFresh k f2 typ t1 (forceStopNote k (stopNote k t0 s)) := by
    simp [playNote, hstop]
  have hact : (playNote k f2 typ t1 (stopNote k t0 s)).activeNotes k
      = some ⟨f2, false, s.instanceCounter + 1⟩ := by
    rw [hplay]
    simp [startFresh, hfcnt]
  have hgen : n.instanceId < s.instanceCounter + 1 := by omega
  have hgeneral : ∀ s3 : EngineState, ∀ cur : ActiveNote,
      s3.activeNotes k = some cur →
      cur.instanceId ≠ n.instanceId →
      (runCleanup ⟨k, n.instanceId, t0 + RELEASE_TIME + 1 / 20⟩ s3).activeNotes
          = s3.activeNotes ∧
      (runCleanup ⟨k, n.instanceId, t0 + RELEASE_TIME + 1 / 20⟩ s3).visActive
          = s3.visActive := by
    intro s3 cur hcur hne
    constructor
    · simp [runCleanup, hcur, hne]
    · simp [runCleanup, hcur, hne]
  have hnewne : (s.instanceCounter + 1 : ℕ) ≠ n.instanceId := by omega
  refine ⟨hpend, hact, hgen, ?_, ?_, ?_, hgeneral⟩
  · exact (hgeneral _ _ hact hnewne).1
  · exact (hgeneral _ _ hact hnewne).2
  · intro o ho
    simp only [runCleanup, hact, hnewne, if_false, if_pos rfl] at ho
    obtain ⟨o1, _, rfl⟩ := Option.map_eq_some'.mp ho
    rfl

/-- Witness for C2: stop generation 1 of key "k", retrigger to generation
2, then fire the stale cleanup; the newer entry survives. -/
theorem stale_cleanup_skips_newer_witness :
    (playNote "k" 440 "sine" 0 initState).activeNotes "k" = some ⟨440, false, 1⟩ ∧
    (runCleanup ⟨"k", 1, 1 + RELEASE_TIME + 1 / 20⟩
        (playNote "k" 523 "sine" 2 (stopNote "k" 1 (playNote "k" 440 "sine" 0 initState)))).activeNotes
      = (playNote "k" 523 "sine" 2 (stopNote "k" 1 (playNote "k" 440 "sine" 0 initState))).activeNotes := by
  have h := stale_cleanup_skips_newer (playNote "k" 440 "sine" 0 initState)
    "k" 523 "sine" 1 2 ⟨440, false, 1⟩ (by decide) rfl (by decide)
  exact ⟨by decide, h.2.2.2.1⟩

/-- Claim C5: `stopTone` is idempotent: a second consecutive `stopNote` on the
same identity leaves the state of the first unchanged, `stopNote` on an
identity with no live instance is a no-op, and across the two calls the
decay ramp and the deferred cleanup are scheduled exactly once. -/
theorem stopTone_idempotent (k : NoteId) (t1 t2 : ℚ) (s : EngineState) :
    stopNote k t2 (stopNote k t1 s) = stopNote k t1 s ∧
    (s.activeNotes k = none → stopNote k t1 s = s) ∧
    (∀ n : ActiveNote, s.activeNotes k = some n → n.isReleasing = false →
      (stopNote k t2 (stopNote k t1 s)).rampEvents
          = s.rampEvents ++ [(k, n.instanceId, t1)] ∧
      (stopNote k t2 (stopNote k t1 s)).pending
          = s.pending ++ [⟨k, n.instanceId, t1 + RELEASE_TIME + 1 / 20⟩]) := by
  have hmain : stopNote k t2 (stopNote k t1 s) = stopNote k t1 s := by
    cases h : s.activeNotes k with
    | none => simp [stopNote, h]
    | some n =>
      cases hr : n.isReleasing with
      | true => simp [stopNote, h, hr]
      | false =>
        simp only [stopNote, h, hr]
        simp [stopNote]
  refine ⟨hmain, ?_, ?_⟩
  · intro h
    simp [stopNote, h]
  · intro n h hr
    rw [hmain]
    constructor
    · simp [stopNote, h, hr]
    · simp [stopNote, h, hr]

/-- Witness for C5 at a concrete reachable state: one started note,
stopped twice. -/
theorem stopTone_idempotent_witness :
    stopNote "k" 2 (stopNote "k" 1 (playNote "k" 440 "sine" 0 initState))
        = stopNote "k" 1 (playNote "k" 440 "sine" 0 initState) ∧
    (stopNote "k" 2 (stopNote "k" 1 (playNote "k" 440 "sine" 0 initState))).pending
        = [⟨"k", 1, 1 + RELEASE_TIME + 1 / 20⟩] := by
  have h := stopTone_idempotent "k" 1 2 (playNote "k" 440 "sine" 0 initState)
  refine ⟨h.1, ?_⟩
  have h3 := h.2.2 ⟨440, false, 1⟩ (by decide) rfl
  rw [h3.2]
  simp [playNote, initState, startFresh]

/-- Claim C6: `startTone` on an identity whose live instance is not releasing
(Attacking or Sustaining) is a no-op: the state is unchanged, the counter
does not advance, and the stored instance (hence its frequency) is the
original one. -/
theorem startTone_noop_while_live (s : EngineState) (k : NoteId) (f2 : ℚ)
    (typ : String) (now : ℚ) (n : ActiveNote)
    (hn : s.activeNotes k = some n) (hrel : n.isReleasing = false) :
    playNote k f2 typ now s = s ∧
    (playNote k f2 typ now s).instanceCounter = s.instanceCounter ∧
    (playNote k f2 typ now s).activeNotes k = some n := by
  have h : playNote k f2 typ now s = s := by
    simp [playNote, hn, hrel]
  exact ⟨h, by rw [h], by rw [h, hn]⟩

/-- Witness for C6: retriggering a freshly started (non-releasing) note
with a different frequency changes nothing. -/
theorem startTone_noop_while_live_witness :
    playNote "k" 523 "sine" 1 (playNote "k" 440 "sine" 0 initState)
        = playNote "k" 440 "sine" 0 initState ∧
    (playNote "k" 523 "sine" 1 (playNote "k" 440 "sine" 0 initState)).activeNotes "k"
        = some ⟨440, false, 1⟩ := by
  have h := startTone_noop_while_live (playNote "k" 440 "sine" 0 initState)
    "k" 523 "sine" 1 ⟨440, false, 1⟩ (by decide) rfl
  exact ⟨h.1, h.2.2⟩

/-- Claim C7: `midiToFrequency 69` at octave offset 0 is exactly 440,
`midiToFrequency 81` is 880, and octave offset `o + 1` equals adding 12 to
the MIDI number at offset `o`. -/
theorem midiToFrequency_correct (m o : ℤ) :
    midiToFrequency 69 0 = 440 ∧
    midiToFrequency 81 0 = 880 ∧
    midiToFrequency m (o + 1) = midiToFrequency (m + 12) o := by
  refine ⟨?_, ?_, ?_⟩
  · have h0 : ((((69 : ℤ) + 0 * 12 : ℤ) : ℝ) - 69) / 12 = 0 := by
      push_cast
      ring
    rw [midiToFrequency, h0, Real.rpow_zero]
    norm_num
  · have h1 : ((((81 : ℤ) + 0 * 12 : ℤ) : ℝ) - 69) / 12 = 1 := by
      push_cast
      norm_num
    rw [midiToFrequency, h1, Real.rpow_one]
    norm_num
  · have he : ((((m + (o + 1) * 12 : ℤ)) : ℝ) - 69) / 12
        = ((((m + 12 + o * 12 : ℤ)) : ℝ) - 69) / 12 := by
      push_cast
      ring
    rw [midiToFrequency, midiToFrequency, he]

/-- Claim C8 counterexample: requesting `fadeLength = 4000` stores 4000, not
`max 100 (min 3000 4000) = 3000`; the stored value exceeds 3000 ms. -/
theorem fade_clamp_counterexample :
    (updateVisualSettings ⟨none, none, some 4000⟩ visualSettings).fadeLength
        ≠ max 100 (min 3000 4000) ∧
    3000 < (updateVisualSettings ⟨none, none, some 4000⟩ visualSettings).fadeLength := by
  constructor
  · decide
  · decide

/-- Claim C8 amended: the stored fade duration is clamped to the range
100–5000 ms: it equals `max 100 (min 5000 v)` and never exceeds 5000 ms. -/
theorem fade_clamp_amended (v : ℚ) (s : VisualSettings) :
    (updateVisualSettings ⟨none, none, some v⟩ s).fadeLength = max 100 (min 5000 v) ∧
    (updateVisualSettings ⟨none, none, some v⟩ s).fadeLength ≤ 5000 := by
  have h : (updateVisualSettings ⟨none, none, some v⟩ s).fadeLength
      = max 100 (min 5000 v) := rfl
  refine ⟨h, ?_⟩
  rw [h]
  exact max_le (by norm_num) (min_le_left _ _)

/-- The engine's `activeNotes` map and the visualization-facing
`noteState.active` map are keyed by the same identities, with matching
frequency and instance id on every entry. -/
def Synced (s : EngineState) : Prop :=
  ∀ k : NoteId,
    (∀ a : ActiveNote, s.activeNotes k = some a →
      ∃ v : VisNote, s.visActive k = some v ∧
        v.frequency = a.frequency ∧ v.instanceId = a.instanceId) ∧
    (∀ v : VisNote, s.visActive k = some v →
      ∃ a : ActiveNote, s.activeNotes k = some a)

lemma synced_startFresh (s : EngineState) (k : NoteId) (f : ℚ) (typ : String)
    (now : ℚ) (h : Synced s) : Synced (startFresh k f typ now s) := by
  intro k2
  by_cases hk : k2 = k
  · subst hk
    constructor
    · intro a ha
      simp only [startFresh, if_pos rfl] at ha ⊢
      exact ⟨_, rfl, by simp [← Option.some_inj.mp ha], by simp [← Option.some_inj.mp ha]⟩
    · intro v _
      exact ⟨⟨f, false, s.instanceCounter + 1⟩, by simp [startFresh]⟩
  · constructor
    · intro a ha
      simp only [startFresh, if_neg hk] at ha ⊢
      exact (h k2).1 a ha
    · intro v hv
      simp only [startFresh, if_neg hk] at hv ⊢
      exact (h k2).2 v hv

lemma synced_forceStopNote (s : EngineState) (k : NoteId)
    (h : Synced s) : Synced (forceStopNote k s) := by
  cases hm : s.activeNotes k with
  | none => simpa [forceStopNote, hm] using h
  | some n =>
    intro k2
    by_cases hk : k2 = k
    · subst hk
      constructor
      · intro a ha
        simp [forceStopNote, hm] at ha
      · intro v hv
        simp [forceStopNote, hm] at hv
    · constructor
      · intro a ha
        simp only [forceStopNote, hm, if_neg hk] at ha ⊢
        exact (h k2).1 a ha
      · intro v hv
        simp only [forceStopNote, hm, if_neg hk] at hv ⊢
        exact (h k2).2 v hv

lemma synced_stopNote (s : EngineState) (k : NoteId) (now : ℚ)
    (h : Synced s) : Synced (stopNote k now s) := by
  cases hm : s.activeNotes k with
  | none => simpa [stopNote, hm] using h
  | some n =>
    cases hr : n.isReleasing with
    | true => simpa [stopNote, hm, hr] using h
    | false =>
      intro k2
      by_cases hk : k2 = k
      · subst hk
        constructor
        · intro a ha
          simp only [stopNote, hm, hr, Bool.false_eq_true, if_false, if_pos rfl] at ha ⊢
          obtain ⟨v, hv, hvf, hvi⟩ := (h k2).1 n hm
          refine ⟨_, by rw [hv]; rfl, ?_, ?_⟩
          · rw [← Option.some_inj.mp ha]
            exact hvf
          · rw [← Option.some_inj.mp ha]
            exact hvi
        · intro v hv
          simp only [stopNote, hm, hr, Bool.false_eq_true, if_false, if_pos rfl] at hv ⊢
          exact ⟨_, rfl⟩
      · constructor
        · intro a ha
          simp only [stopNote, hm, hr, Bool.false_eq_true, if_false, if_neg hk] at ha ⊢
          exact (h k2).1 a ha
        · intro v hv
          simp only [stopNote, hm, hr, Bool.false_eq_true, if_false, if_neg hk] at hv ⊢
          exact (h k2).2 v hv

lemma synced_runCleanup (s : EngineState) (c : Cleanup)
    (h : Synced s) : Synced (runCleanup c s) := by
  have hboth : ∀ s2 : EngineState, Synced s2 →
      Synced { s2 with
        activeNotes := fun k => if k = c.noteId then none else s2.activeNotes k,
        visActive := fun k => if k = c.noteId then none else s2.visActive k } := by
    intro s2 h2 k2
    by_cases hk : k2 = c.noteId
    · subst hk
      exact ⟨fun a ha => by simp at ha, fun v hv => by simp at hv⟩
    · constructor
      · intro a ha
        simp only [if_neg hk] at ha ⊢
        exact (h2 k2).1 a ha
      · intro v hv
        simp only [if_neg hk] at hv ⊢
        exact (h2 k2).2 v hv
  cases hm : s.activeNotes c.noteId with
  | none =>
    have := hboth s h
    intro k2
    simpa [runCleanup, hm] using this k2
  | some cur =>
    by_cases hid : cur.instanceId = c.capturedInstanceId
    · have := hboth s h
      intro k2
      simpa [runCleanup, hm, hid] using this k2
    · intro k2
      simpa [runCleanup, hm, hid] using h k2

/-- Claim C10: starting from any state where the engine's `activeNotes` map
and the visualization map `noteState.active` agree (same identities, same
frequency and generation per identity), every `playNote`, `stopNote`,
`forceStopNote` and every fired deferred-cleanup callback preserves that
agreement. -/
theorem engine_maps_synced (s : EngineState) (k : NoteId) (f : ℚ)
    (typ : String) (t : ℚ) (c : Cleanup) (h : Synced s) :
    Synced (playNote k f typ t s) ∧ Synced (stopNote k t s) ∧
    Synced (forceStopNote k s) ∧ Synced (runCleanup c s) := by
  refine ⟨?_, synced_stopNote s k t h, synced_forceStopNote s k h,
    synced_runCleanup s c h⟩
  cases hm : s.activeNotes k with
  | none =>
    rw [show playNote k f typ t s = startFresh k f typ t s from by simp [playNote, hm]]
    exact synced_startFresh s k f typ t h
  | some n =>
    cases hr : n.isReleasing with
    | false => simpa [playNote, hm, hr] using h
    | true =>
      rw [show playNote k f typ t s
          = startFresh k f typ t (forceStopNote k s) from by simp [playNote, hm, hr]]
      exact synced_startFresh _ k f typ t (synced_forceStopNote s k h)

/-- Witness for C10: the empty initial state is synced, and stays synced
through a play, a stop and a fired cleanup on key "k". -/
theorem engine_maps_synced_witness :
    Synced initState ∧
    Synced (stopNote "k" 1 (playNote "k" 440 "sine" 0 initState)) := by
  have hinit : Synced initState := by
    intro k
    constructor
    · intro a ha
      simp [initState] at ha
    · intro v hv
      simp [initState] at hv
  have h1 := (engine_maps_synced initState "k" 440 "sine" 0 ⟨"k", 0, 0⟩ hinit).1
  have h2 := (engine_maps_synced (playNote "k" 440 "sine" 0 initState)
    "k" 440 "sine" 1 ⟨"k", 0, 0⟩ h1).2.1
  exact ⟨hinit, h2⟩

/-- Claim C3: `getNoteGain` is 0 with no live instance; otherwise, with
max = 0.3, attack 0.02 s, release 0.15 s and floor 0.001, it is the linear
ramp `max * elapsed / attackDuration` during attack, `max` during sustain,
and `max * (floor / max) ^ min(releaseElapsed / releaseDuration, 1)` while
releasing; under a monotone clock the sample always lies in `[0, 1]`. -/
theorem sampleEnvelope_formula (s : EngineState) (k : NoteId) (now : ℚ) :
    (s.activeNotes k = none → getNoteGain k now s = 0) ∧
    (∀ a : ActiveNote, ∀ nd : VisNote,
      s.activeNotes k = some a → s.visActive k = some nd →
      (nd.releasing = false → now - nd.startTime < ATTACK_TIME →
          getNoteGain k now s
            = ((((now - nd.startTime) / ATTACK_TIME) * MAX_GAIN : ℚ) : ℝ)) ∧
      (nd.releasing = false → ATTACK_TIME ≤ now - nd.startTime →
          getNoteGain k now s = ((MAX_GAIN : ℚ) : ℝ)) ∧
      (nd.releasing = true →
          getNoteGain k now s
            = ((MAX_GAIN : ℚ) : ℝ) * ((1 / 1000 / MAX_GAIN : ℚ) : ℝ) ^
                (((min ((now - nd.releaseStartTime) / RELEASE_TIME) 1 : ℚ)) : ℝ)) ∧
      (nd.startTime ≤ now → (nd.releasing = true → nd.releaseStartTime ≤ now) →
          0 ≤ getNoteGain k now s ∧ getNoteGain k now s ≤ 1)) := by
  refine ⟨fun h => by simp [getNoteGain, h], ?_⟩
  intro a nd ha hv
  have hg : getNoteGain k now s =
      (if nd.releasing then
        ((MAX_GAIN : ℚ) : ℝ) * ((1 / 1000 / MAX_GAIN : ℚ) : ℝ) ^
            (((min ((now - nd.releaseStartTime) / RELEASE_TIME) 1 : ℚ)) : ℝ)
      else if now - nd.startTime < ATTACK_TIME then
        ((((now - nd.startTime) / ATTACK_TIME) * MAX_GAIN : ℚ) : ℝ)
      else ((MAX_GAIN : ℚ) : ℝ)) := by
    simp [getNoteGain, ha, hv]
  refine ⟨?_, ?_, ?_, ?_⟩
  · intro hrel hlt
    rw [hg, if_neg (by simp [hrel]), if_pos hlt]
  · intro hrel hge
    rw [hg, if_neg (by simp [hrel]), if_neg (not_lt.mpr hge)]
  · intro hrel
    rw [hg, if_pos hrel]
  · intro hst hrelst
    cases hrel : nd.releasing with
    | true =>
      rw [hg, if_pos hrel]
      have hrst : nd.releaseStartTime ≤ now := hrelst hrel
      have hp0 : (0 : ℚ) ≤ min ((now - nd.releaseStartTime) / RELEASE_TIME) 1 :=
        le_min (div_nonneg (by linarith) (by norm_num [RELEASE_TIME])) (by norm_num)
      have hpR : (0 : ℝ) ≤ ((min ((now - nd.releaseStartTime) / RELEASE_TIME) 1 : ℚ) : ℝ) := by
        exact_mod_cast hp0
      have hb : ((1 / 1000 / MAX_GAIN : ℚ) : ℝ) = 1 / 300 := by
        norm_num [MAX_GAIN]
      have hmg : ((MAX_GAIN : ℚ) : ℝ) = 3 / 10 := by
        norm_num [MAX_GAIN]
      rw [hb, hmg]
      constructor
      · exact mul_nonneg (by norm_num)
          (Real.rpow_nonneg (by norm_num) _)
      · have h1 : ((1 : ℝ) / 300) ^ ((min ((now - nd.releaseStartTime) / RELEASE_TIME) 1 : ℚ) : ℝ) ≤ 1 :=
          Real.rpow_le_one (by norm_num) (by norm_num) hpR
        nlinarith [h1]
    | false =>
      by_cases hlt : now - nd.startTime < ATTACK_TIME
      · rw [hg, if_neg (by simp [hrel]), if_pos hlt]
        have he0 : (0 : ℚ) ≤ now - nd.startTime := by linarith
        have hA : (0 : ℚ) < ATTACK_TIME := by norm_num [ATTACK_TIME]
        have hM : (0 : ℚ) ≤ MAX_GAIN := by norm_num [MAX_GAIN]
        constructor
        · have : (0 : ℚ) ≤ (now - nd.startTime) / ATTACK_TIME * MAX_GAIN :=
            mul_nonneg (div_nonneg he0 hA.le) hM
          exact_mod_cast this
        · have hr1 : (now - nd.startTime) / ATTACK_TIME ≤ 1 := by
            rw [div_le_one hA]
            linarith
          have : (now - nd.startTime) / ATTACK_TIME * MAX_GAIN ≤ 1 := by
            have hM1 : MAX_GAIN ≤ 1 := by norm_num [MAX_GAIN]
            nlinarith [div_nonneg he0 hA.le]
          exact_mod_cast this
      · rw [hg, if_neg (by simp [hrel]), if_neg hlt]
        constructor
        · have : (0 : ℚ) ≤ MAX_GAIN := by norm_num [MAX_GAIN]
          exact_mod_cast this
        · have : MAX_GAIN ≤ (1 : ℚ) := by norm_num [MAX_GAIN]
          exact_mod_cast this

/-- Witness for C3 at the spec's scenario: mid-attack at t = 0.01 the
sample is the linear ramp value (0.15). -/
theorem sampleEnvelope_formula_witness :
    (playNote "k" 440 "sine" 0 initState).activeNotes "k" = some ⟨440, false, 1⟩ ∧
    (playNote "k" 440 "sine" 0 initState).visActive "k"
        = some ⟨440, MAX_GAIN, 0, 1, false, 0⟩ ∧
    getNoteGain "k" (1 / 100) (playNote "k" 440 "sine" 0 initState)
        = ((((((1 : ℚ) / 100) - 0) / ATTACK_TIME) * MAX_GAIN : ℚ) : ℝ) := by
  have h := (sampleEnvelope_formula (playNote "k" 440 "sine" 0 initState) "k" (1 / 100)).2
    ⟨440, false, 1⟩ ⟨440, MAX_GAIN, 0, 1, false, 0⟩ (by decide) rfl
  exact ⟨by decide, rfl, h.1 rfl (by norm_num [ATTACK_TIME])⟩

/-- Claim C4: for a live instance, the sample is non-decreasing in time while
not releasing (through attack into sustain), and after `stopTone`, while
releasing, non-increasing in time and strictly positive at every time. -/
theorem envelope_monotone (s : EngineState) (k : NoteId) (a : ActiveNote)
    (nd : VisNote) (ha : s.activeNotes k = some a) (hv : s.visActive k = some nd) :
    (nd.releasing = false → ∀ t1 t2 : ℚ, nd.startTime ≤ t1 → t1 ≤ t2 →
        getNoteGain k t1 s ≤ getNoteGain k t2 s) ∧
    (nd.releasing = true → ∀ t1 t2 : ℚ, t1 ≤ t2 →
        getNoteGain k t2 s ≤ getNoteGain k t1 s) ∧
    (nd.releasing = true → ∀ t : ℚ, 0 < getNoteGain k t s) := by
  have hg : ∀ t : ℚ, getNoteGain k t s =
      (if nd.releasing then
        ((MAX_GAIN : ℚ) : ℝ) * ((1 / 1000 / MAX_GAIN : ℚ) : ℝ) ^
            (((min ((t - nd.releaseStartTime) / RELEASE_TIME) 1 : ℚ)) : ℝ)
      else if t - nd.startTime < ATTACK_TIME then
        ((((t - nd.startTime) / ATTACK_TIME) * MAX_GAIN : ℚ) : ℝ)
      else ((MAX_GAIN : ℚ) : ℝ)) := by
    intro t
    simp [getNoteGain, ha, hv]
  have hb : ((1 / 1000 / MAX_GAIN : ℚ) : ℝ) = 1 / 300 := by
    norm_num [MAX_GAIN]
  have hmg : ((MAX_GAIN : ℚ) : ℝ) = 3 / 10 := by
    norm_num [MAX_GAIN]
  have hA : (0 : ℚ) < ATTACK_TIME := by norm_num [ATTACK_TIME]
  have hM : (0 : ℚ) ≤ MAX_GAIN := by norm_num [MAX_GAIN]
  refine ⟨?_, ?_, ?_⟩
  · intro hrel t1 t2 h1 h12
    have hgA : ∀ t : ℚ, getNoteGain k t s =
        (if t - nd.startTime < ATTACK_TIME then
          ((((t - nd.startTime) / ATTACK_TIME) * MAX_GAIN : ℚ) : ℝ)
        else ((MAX_GAIN : ℚ) : ℝ)) := by
      intro t
      rw [hg t, if_neg (show ¬ (nd.releasing = true) by simp [hrel])]
    rw [hgA t1, hgA t2]
    by_cases c2 : t2 - nd.startTime < ATTACK_TIME
    · have c1 : t1 - nd.startTime < ATTACK_TIME := by linarith
      rw [if_pos c1, if_pos c2]
      have : (t1 - nd.startTime) / ATTACK_TIME * MAX_GAIN
          ≤ (t2 - nd.startTime) / ATTACK_TIME * MAX_GAIN := by
        apply mul_le_mul_of_nonneg_right _ hM
        exact (div_le_div_iff_of_pos_right hA).mpr (by linarith)
      exact_mod_cast this
    · rw [if_neg c2]
      by_cases c1 : t1 - nd.startTime < ATTACK_TIME
      · rw [if_pos c1]
        have hr1 : (t1 - nd.startTime) / ATTACK_TIME ≤ 1 := by
          rw [div_le_one hA]
          linarith
        have he0 : (0 : ℚ) ≤ t1 - nd.startTime := by linarith
        have : (t1 - nd.startTime) / ATTACK_TIME * MAX_GAIN ≤ MAX_GAIN := by
          nlinarith [div_nonneg he0 hA.le]
        exact_mod_cast this
      · rw [if_neg c1]
  · intro hrel t1 t2 h12
    rw [hg t1, hg t2, if_pos hrel, if_pos hrel, hb, hmg]
    have hR : (0 : ℚ) < RELEASE_TIME := by norm_num [RELEASE_TIME]
    have hple : min ((t1 - nd.releaseStartTime) / RELEASE_TIME) 1
        ≤ min ((t2 - nd.releaseStartTime) / RELEASE_TIME) 1 := by
      apply min_le_min _ le_rfl
      exact (div_le_div_iff_of_pos_right hR).mpr (by linarith)
    have hpleR : (((min ((t1 - nd.releaseStartTime) / RELEASE_TIME) 1 : ℚ)) : ℝ)
        ≤ (((min ((t2 - nd.releaseStartTime) / RELEASE_TIME) 1 : ℚ)) : ℝ) := by
      exact_mod_cast hple
    have := Real.rpow_le_rpow_of_exponent_ge (x := (1 : ℝ) / 300)
      (by norm_num) (by norm_num) hpleR
    nlinarith [this]
  · intro hrel t
    rw [hg t, if_pos hrel, hb, hmg]
    exact mul_pos (by norm_num) (Real.rpow_pos_of_pos (by norm_num) _)

/-- Witness for C4: after stopping at t = 1, the sample at 1.1 is at most
the sample at 1.05, and still positive at t = 2. -/
theorem envelope_monotone_witness :
    (stopNote "k" 1 (playNote "k" 440 "sine" 0 initState)).activeNotes "k"
        = some ⟨440, true, 1⟩ ∧
    (stopNote "k" 1 (playNote "k" 440 "sine" 0 initState)).visActive "k"
        = some ⟨440, MAX_GAIN, 0, 1, true, 1⟩ ∧
    getNoteGain "k" (11 / 10) (stopNote "k" 1 (playNote "k" 440 "sine" 0 initState))
        ≤ getNoteGain "k" (21 / 20) (stopNote "k" 1 (playNote "k" 440 "sine" 0 initState)) ∧
    0 < getNoteGain "k" 2 (stopNote "k" 1 (playNote "k" 440 "sine" 0 initState)) := by
  have h := envelope_monotone (stopNote "k" 1 (playNote "k" 440 "sine" 0 initState))
    "k" ⟨440, true, 1⟩ ⟨440, MAX_GAIN, 0, 1, true, 1⟩ (by decide) rfl
  exact ⟨by decide, rfl, h.2.1 rfl (21 / 20) (11 / 10) (by norm_num), h.2.2 rfl 2⟩

/-- Claim C9 counterexample: configure `fadeLength = 1000`; for a fading
entity with fade elapsed 750 ms and the sustained sample 0.3 for its
identity, the opacity the renderer computes (fade scale hard-coded to
500 ms, giving 0) differs from the claimed
`sampleEnvelope * 2 * (1 - fadeElapsed / fadeLength)` clamped to `[0,1]`
(which gives 0.15). -/
theorem render_fade_counterexample :
    (updateVisualSettings ⟨none, none, some 1000⟩ visualSettings).fadeLength = 1000 ∧
    getNoteGain "k" 1 (playNote "k" 440 "sine" 0 initState) = ((MAX_GAIN : ℚ) : ℝ) ∧
    entityOpacity (getNoteGain "k" 1 (playNote "k" 440 "sine" 0 initState)) true 750 0
      ≠ entityOpacityClaimed (getNoteGain "k" 1 (playNote "k" 440 "sine" 0 initState))
          true 750 0
          ((updateVisualSettings ⟨none, none, some 1000⟩ visualSettings).fadeLength) := by
  have hfl : (updateVisualSettings ⟨none, none, some 1000⟩ visualSettings).fadeLength
      = 1000 := by
    show max 100 (min 5000 1000) = 1000
    rw [min_eq_right (by norm_num : (1000 : ℚ) ≤ 5000),
      max_eq_right (by norm_num : (100 : ℚ) ≤ 1000)]
  have hgain : getNoteGain "k" 1 (playNote "k" 440 "sine" 0 initState)
      = ((MAX_GAIN : ℚ) : ℝ) := by
    have hna : (playNote "k" 440 "sine" 0 initState).activeNotes "k"
        = some ⟨440, false, 1⟩ := by decide
    have hnv : (playNote "k" 440 "sine" 0 initState).visActive "k"
        = some ⟨440, MAX_GAIN, 0, 1, false, 0⟩ := rfl
    rw [getNoteGain, hna, hnv]
    norm_num [ATTACK_TIME]
  have hlhs : entityOpacity ((MAX_GAIN : ℚ) : ℝ) true 750 0 = 0 := by
    norm_num [entityOpacity, MAX_GAIN, min_def, max_def]
  have hrhs : entityOpacityClaimed ((MAX_GAIN : ℚ) : ℝ) true 750 0 1000 = 3 / 20 := by
    norm_num [entityOpacityClaimed, MAX_GAIN, min_def, max_def]
  refine ⟨hfl, hgain, ?_⟩
  rw [hfl, hgain, hlhs, hrhs]
  norm_num

/-- Claim C9 amended: the renderer scales a fading entity's opacity by
`max 0 (1 - fadeElapsed / 500)` with the fade window hard-coded to 500 ms
(the configured `fadeLength` governs only when a fading entity is
destroyed); the result is `min (gain * 2 * scale) 1`, lies in `[0, 1]` for
a non-negative sample, and the entity is skipped exactly when it is ≤ 0. -/
theorem render_fade_amended (gain : ℝ) (fading : Bool) (ct fst : ℚ)
    (hg : 0 ≤ gain) :
    entityOpacity gain fading ct fst
      = min (gain * 2 *
          (if fading then max 0 (1 - ((ct - fst : ℚ) : ℝ) / 500) else 1)) 1 ∧
    0 ≤ entityOpacity gain fading ct fst ∧
    entityOpacity gain fading ct fst ≤ 1 ∧
    (entityOpacity gain fading ct fst ≤ 0 →
        renderedOpacity gain fading ct fst = none) ∧
    (0 < entityOpacity gain fading ct fst →
        renderedOpacity gain fading ct fst
          = some (entityOpacity gain fading ct fst)) ∧
    (∀ settings : VisualSettings,
        entityExpired settings fading ct fst = true ↔
          fading = true ∧ settings.fadeLength < ct - fst) := by
  have hchar : entityOpacity gain fading ct fst
      = min (gain * 2 *
          (if fading then max 0 (1 - ((ct - fst : ℚ) : ℝ) / 500) else 1)) 1 := by
    cases fading
    · simp [entityOpacity]
    · simp [entityOpacity, mul_assoc]
  have h0 : 0 ≤ entityOpacity gain fading ct fst := by
    rw [hchar]
    apply le_min _ zero_le_one
    cases fading
    · simpa using mul_nonneg hg (by norm_num : (0 : ℝ) ≤ 2)
    · exact mul_nonneg (mul_nonneg hg (by norm_num : (0 : ℝ) ≤ 2))
        (by simp [le_max_iff])
  have h1 : entityOpacity gain fading ct fst ≤ 1 := by
    rw [hchar]
    exact min_le_right _ _
  refine ⟨hchar, h0, h1, ?_, ?_, ?_⟩
  · intro hle
    simp [renderedOpacity, hle]
  · intro hlt
    simp [renderedOpacity, not_le.mpr hlt]
  · intro settings
    simp [entityExpired]

/-- Witness for C9's amended claim at gain 1/2, fading, fade elapsed
100 ms. -/
theorem render_fade_amended_witness :
    (0 : ℝ) ≤ 1 / 2 ∧
    entityOpacity (1 / 2) true 100 0
      = min ((1 / 2 : ℝ) * 2 *
          (if true then max 0 (1 - ((100 - 0 : ℚ) : ℝ) / 500) else 1)) 1 := by
  have h := render_fade_amended (1 / 2) true 100 0 (by norm_num)
  exact ⟨by norm_num, h.1⟩

end Keyboard
